import Mathlib

/-!
# Event deduplication and delivery-tracking subsystem: a shallow embedding

This development embeds the deduplication / delivery-tracking core of the
events-alerts service (`src/events_alerts.py`) and proves the specified
properties about it.

Modelling conventions:

* A timestamp is an `Int`, read as microseconds on an absolute scale
  (Python `datetime` has microsecond resolution).  The on-disk ISO strings
  are kept as opaque `String`s; `datetime.fromisoformat` is a parameter
  `parseTs : String → Option Int` (`none` = raises `ValueError`/`TypeError`),
  and Python `int(...)` applied to JSON keys is a parameter
  `parseKey : String → Option Int`.
* The tracking dictionary `sent_events` (event id → ISO timestamp string) is
  an association list `Store := List (Int × String)`; JSON objects have
  unique keys, and dict equality in Python is content equality, rendered
  here as `List.Perm` where needed.
* A pandas `DataFrame` of candidate events is a list of rows plus a flag
  recording whether the `id` column is present; each row keeps its `id`,
  its `email` routing key (`none` = NaN, matching `na=False` in
  `str.contains`), and the remaining display columns as one opaque field.
* Fallible file-system effects (`save_sent_events`) are explicit state
  passing over a tiny file-system record; an exception that propagates to
  the caller is modelled by a `false` success flag in the result.
-/

namespace EventsAlerts

/-- The persisted tracking dictionary: event id → `sentAt` ISO string
(`sent_events` in `load_sent_events` / `save_sent_events`). -/
abbrev Store := List (Int × String)

/-- The key set of the tracking dictionary. -/
def keys (s : Store) : List Int := s.map Prod.fst

/-- Python `k in sent_events` (dict key test, used via `.isin(dict.keys())`). -/
def isKey (s : Store) (k : Int) : Bool := s.any (fun e => decide (e.1 = k))

/-- Python `sent_events[k]` as a partial lookup (first entry wins; keys are
unique in every store produced by the program). -/
def storeLookup : Store → Int → Option String
  | [], _ => none
  | e :: rest, k => if e.1 = k then some e.2 else storeLookup rest k

/-- One row of the candidates `DataFrame`: the event `id`, the `email`
routing key used for group classification (`none` models NaN), and the
remaining display columns collapsed into one opaque field. -/
structure Row where
  id : Int
  email : Option (List Char)
  rest : String
deriving DecidableEq, Repr

/-- A candidates `DataFrame`: its rows, plus whether the `id` column is
present at all (`'id' in df.columns`). -/
structure DataFrame where
  hasIdColumn : Bool
  rows : List Row
deriving DecidableEq, Repr

/-- Embeds `filter_unsent_events` (src/events_alerts.py:267-286): empty
frame returned as is; a frame lacking the `id` column returned as is (with
a warning); otherwise keep exactly the rows whose id is not a key of
`sent_events` (`df[~df['id'].isin(sent_events.keys())]`). -/
def filter_unsent_events (df : DataFrame) (sent_events : Store) : DataFrame :=
  if df.rows.isEmpty then df
  else if df.hasIdColumn = false then df
  else { df with rows := df.rows.filter (fun r => !(isKey sent_events r.id)) }

/-!
## Loading and pruning the tracking store (`load_sent_events`, lines 153-218)
-/

/-- The parsed JSON content of the tracking file, restricted to the fields
`load_sent_events` reads.  `missing` = file absent; `corruptJson` =
`json.JSONDecodeError`; `badStructure` = any other shape that makes the
body raise (caught by the final `except Exception`), e.g. non-integer
keys; `parsed` carries `data.get('sent_events', {})` as string-keyed pairs
and `data['sent_event_ids']` when that key is present. -/
inductive FileData where
  | missing
  | corruptJson
  | badStructure
  | parsed (sent_events : List (String × String)) (sent_event_ids : Option (List Int))
deriving DecidableEq, Repr

/-- Lines 169-176: start from `data.get('sent_events', {})`; if that is
empty (falsy) and `sent_event_ids` is present, convert the legacy id list,
stamping every id with the current load time (`current_time`). -/
def select_sent_events_data (sent_events_data : List (String × String))
    (sent_event_ids : Option (List Int)) (nowStr : String) : List (String × String) :=
  if sent_events_data.isEmpty then
    match sent_event_ids with
    | some ids => ids.map (fun i => (toString i, nowStr))
    | none => sent_events_data
  else sent_events_data

/-- Line 179: `{int(k): v for k, v in sent_events_data.items()}`.  A key on
which `int` raises makes the whole comprehension raise (handled upstream),
hence `none`. -/
def parseKeysToInt (parseKey : String → Option Int) :
    List (String × String) → Option Store
  | [] => some []
  | (k, v) :: rest =>
    match parseKey k with
    | none => none
    | some i => (parseKeysToInt parseKey rest).map (fun r => (i, v) :: r)

/-- The per-entry retention test of the pruning loop (lines 188-203): keep
an entry iff its timestamp parses and `event_timestamp >= cutoff_date`;
unparseable timestamps are dropped. -/
def keep_entry (parseTs : String → Option Int) (cutoff : Int) (e : Int × String) : Bool :=
  match parseTs e.2 with
  | some t => decide (cutoff ≤ t)
  | none => false

/-- The pruning loop (lines 185-203) as a filter: it rebuilds
`filtered_events` from the entries passing `keep_entry`. -/
def prune_entries (parseTs : String → Option Int) (cutoff : Int) (entries : Store) : Store :=
  entries.filter (keep_entry parseTs cutoff)

/-- Result of `load_sent_events`: the returned store, and whether
`save_sent_events` was invoked during the load (line 208, executed only
when `removed_count > 0`). -/
structure LoadResult where
  store : Store
  savedFile : Bool
deriving DecidableEq, Repr

/-- Embeds `load_sent_events` (lines 153-218).  `nowStr` / `now` are the
current wall-clock instant as ISO string and as our absolute time;
`window` is `REMINDER_FREQUENCY_DAYS` converted to the same time unit, so
`cutoff_date = now - window`.  Missing file, corrupt JSON and any
structure error all yield an empty store without raising. -/
def load_sent_events (parseKey parseTs : String → Option Int)
    (nowStr : String) (now window : Int) : FileData → LoadResult
  | .missing => ⟨[], false⟩
  | .corruptJson => ⟨[], false⟩
  | .badStructure => ⟨[], false⟩
  | .parsed sent_events_data sent_event_ids =>
    match parseKeysToInt parseKey
        (select_sent_events_data sent_events_data sent_event_ids nowStr) with
    | none => ⟨[], false⟩
    | some sent_events =>
      let filtered_events := prune_entries parseTs (now - window) sent_events
      ⟨filtered_events, decide (filtered_events.length < sent_events.length)⟩

/-!
## Persisting the tracking store (`save_sent_events`, lines 221-264)
-/

/-- Insertion into a sorted-by-key prefix: helper for Python
`sorted(sent_events.items())` (line 233), which orders entries by key
(keys are unique in every store the program builds). -/
def insertSorted (e : Int × String) : Store → Store
  | [] => [e]
  | f :: rest => if e.1 ≤ f.1 then e :: f :: rest else f :: insertSorted e rest

/-- Python `sorted(sent_events.items())`: the entries in ascending key order. -/
def sortEntries : Store → Store
  | [] => []
  | e :: rest => insertSorted e (sortEntries rest)

/-- Line 233: `{str(k): v for k, v in sorted(sent_events.items())}` — the
string-keyed object written under `'sent_events'`. -/
def serialize_sent_events (s : Store) : List (String × String) :=
  (sortEntries s).map (fun e => (toString e.1, e.2))

/-- The tracking file as written by `save_sent_events`: a current-format
object with the serialized `sent_events` and no legacy `sent_event_ids`
key (`last_updated` is ignored by `load_sent_events` and omitted here). -/
def rendered_file (s : Store) : FileData := .parsed (serialize_sent_events s) none

/-- The durable state touched by `save_sent_events`: the tracking file and
the temporary file from `tempfile.mkstemp`. -/
structure FileSystem where
  tracking : Option FileData
  temp : Option FileData
deriving DecidableEq, Repr

/-- Embeds `save_sent_events` (lines 221-264): create a temp file, dump the
JSON into it, then `shutil.move` it over the tracking file.  `writeFails`
and `renameFails` say whether the dump resp. the rename raises.  The
returned `Bool` is `false` exactly when the function re-raises to its
caller (lines 256-264: the temp file is removed and the exception is
logged and re-raised). -/
def save_sent_events (fs : FileSystem) (sent_events : Store)
    (writeFails renameFails : Bool) : Bool × FileSystem :=
  let fs1 : FileSystem := { fs with temp := some (.parsed [] none) }
  if writeFails then
    (false, { fs1 with temp := none })
  else
    let fs2 : FileSystem := { fs1 with temp := some (rendered_file sent_events) }
    if renameFails then
      (false, { fs2 with temp := none })
    else
      (true, { tracking := some (rendered_file sent_events), temp := none })

/-!
## Delivery bookkeeping and the commit phase of `main` (lines 955-1042)

The delivery section of `main` attempts, best effort, five independent
sends: the internal email, the prominence email, the seatraders email, the
special Teams-channel email, and the Teams webhook message.  Each attempt
sits in its own `try`/`except` that only logs on failure, and raises
success flags that later decide which ids enter the tracking store.

`eids`, `pids`, `sids` stand for `event_ids`, `event_ids_prominence`,
`event_ids_seatraders`: the id lists `make_html` collects for the full
filtered batch and for the two company sub-batches.
-/

/-- The outcome of one guarded delivery attempt: either the transport call
returned, or it raised (the message is what gets logged). -/
inductive SendResult where
  | ok
  | failed (msg : String)
deriving DecidableEq, Repr

/-- Whether a guarded attempt reached the end of its `try` block. -/
def sendSucceeded : SendResult → Bool
  | .ok => true
  | .failed _ => false

/-- The channel-enabling configuration (`ENABLE_EMAIL_ALERTS`,
`ENABLE_SPECIAL_TEAMS_EMAIL_ALERT`, `ENABLE_TEAMS_ALERTS`). -/
structure ChannelConfig where
  enable_email_alerts : Bool
  enable_special_teams_email_alert : Bool
  enable_teams_alerts : Bool
deriving DecidableEq, Repr

/-- The five per-(group, channel) delivery attempts of one run. -/
structure DeliveryAttempts where
  internal_email : SendResult
  prominence_email : SendResult
  seatraders_email : SendResult
  special_teams_email : SendResult
  teams_message : SendResult
deriving DecidableEq, Repr

/-- Final value of the `notifications_sent` flag (lines 956, 966, 1000,
1011): set by a success of the internal email, the special Teams-channel
email, or the Teams message, each attempted only when its channel is
enabled. -/
def notifications_sent (cfg : ChannelConfig) (a : DeliveryAttempts) : Bool :=
  (cfg.enable_email_alerts && sendSucceeded a.internal_email)
  || (cfg.enable_special_teams_email_alert && sendSucceeded a.special_teams_email)
  || (cfg.enable_teams_alerts && sendSucceeded a.teams_message)

/-- Final value of `notifications_sent_prominence` (lines 957, 975): the
prominence email is attempted only under `ENABLE_EMAIL_ALERTS` and only
when the prominence sub-batch is non-empty. -/
def notifications_sent_prominence (cfg : ChannelConfig) (a : DeliveryAttempts)
    (pids : List Int) : Bool :=
  cfg.enable_email_alerts && !pids.isEmpty && sendSucceeded a.prominence_email

/-- Final value of `notifications_sent_seatraders` (lines 958, 986). -/
def notifications_sent_seatraders (cfg : ChannelConfig) (a : DeliveryAttempts)
    (sids : List Int) : Bool :=
  cfg.enable_email_alerts && !sids.isEmpty && sendSucceeded a.seatraders_email

/-- Embeds `all_sent_event_ids` (lines 1018-1030): the union, over the three
recipient groups, of the group's ids when that group saw at least one
successful delivery (guards `if flag and id_list:` as in the source). -/
def all_sent_event_ids (cfg : ChannelConfig) (a : DeliveryAttempts)
    (eids pids sids : List Int) : Finset Int :=
  let s0 : Finset Int := ∅
  let s1 := if notifications_sent cfg a && !eids.isEmpty then s0 ∪ eids.toFinset else s0
  let s2 := if notifications_sent_prominence cfg a pids && !pids.isEmpty
            then s1 ∪ pids.toFinset else s1
  if notifications_sent_seatraders cfg a sids && !sids.isEmpty
  then s2 ∪ sids.toFinset else s2

/-- Line 1038, `sent_events[event_id] = current_timestamp`: insert or
overwrite one key of the tracking dictionary. -/
def dictInsert (st : Store) (k : Int) (v : String) : Store :=
  if isKey st k then st.map (fun e => if e.1 = k then (k, v) else e)
  else st ++ [(k, v)]

/-- The commit loop (lines 1037-1038): stamp every delivered id with the
single run timestamp. -/
def commit_sent (st : Store) (ids : List Int) (ts : String) : Store :=
  ids.foldl (fun acc i => dictInsert acc i ts) st

/-- The commit-and-persist tail of `main` (lines 1032-1042): only when
`all_sent_event_ids` is non-empty are the ids stamped with
`run_time.isoformat()` and the store saved; otherwise the store is left
untouched and nothing is written.  The returned `Bool` records whether
`save_sent_events` was invoked.  (Python iterates the id set in
unspecified order; every insert writes the same value, so we fix ascending
order.)  `run_time_iso` is the ISO rendering of `run_time`, captured at
line 813 before the query and before any delivery attempt. -/
def run_commit_phase (cfg : ChannelConfig) (a : DeliveryAttempts)
    (eids pids sids : List Int) (st : Store) (run_time_iso : String) : Store × Bool :=
  let allIds := all_sent_event_ids cfg a eids pids sids
  if allIds = ∅ then (st, false)
  else (commit_sent st (allIds.sort (· ≤ ·)) run_time_iso, true)

/-!
## Routing: company sub-batches (`main` lines 895-914)
-/

/-- Lowercasing models the effect of `re.IGNORECASE` in
`Series.str.contains(pat, case=False)` for the ASCII patterns used here. -/
def lowerChars (l : List Char) : List Char := l.map Char.toLower

/-- Whether `needle` is a prefix of `hay` (contiguous, from the start). -/
def startsWithChars : List Char → List Char → Bool
  | [], _ => true
  | _ :: _, [] => false
  | a :: as, b :: bs => (a == b) && startsWithChars as bs

/-- Whether `needle` occurs contiguously inside `hay`. -/
def containsChars (needle : List Char) : List Char → Bool
  | [] => needle.isEmpty
  | b :: bs => startsWithChars needle (b :: bs) || containsChars needle bs

/-- One cell of `df['email'].str.contains(needle, case=False, na=False)`:
a NaN routing key never matches; otherwise case-insensitive substring. -/
def strMatchesCI (needle : List Char) : Option (List Char) → Bool
  | none => false
  | some hay => containsChars (lowerChars needle) (lowerChars hay)

/-- The substring rule for the prominence group (line 897). -/
def prominence_needle : List Char := String.toList "prominence"

/-- The substring rule for the seatraders group (line 905). -/
def seatraders_needle : List Char := String.toList "seatraders"

/-- A row as the recipient groups see it: the `email` routing-key column
has been dropped from the display projection (lines 899, 907, 913-914). -/
structure DisplayRow where
  id : Int
  rest : String
deriving DecidableEq, Repr

/-- One row of `df.drop(columns=['email'])`. -/
def dropEmail (r : Row) : DisplayRow := ⟨r.id, r.rest⟩

/-- The three recipient batches `main` builds from the filtered frame. -/
structure Partitioned where
  internal : List DisplayRow
  prominence : List DisplayRow
  seatraders : List DisplayRow
deriving DecidableEq, Repr

/-- Embeds lines 895-914 of `main`: the prominence and seatraders batches
are the rows whose routing key matches the respective case-insensitive
substring rule, the internal batch is the entire filtered frame, and all
three are projected without the `email` column.  (The source skips the
column drop on an empty sub-frame, which has no rows to project, so the
row-level mapping is identical.) -/
def partition_groups (rows : List Row) : Partitioned :=
  let df_prominence := rows.filter (fun r => strMatchesCI prominence_needle r.email)
  let df_seatraders := rows.filter (fun r => strMatchesCI seatraders_needle r.email)
  ⟨rows.map dropEmail, df_prominence.map dropEmail, df_seatraders.map dropEmail⟩

/-!
## Basic lemmas
-/

theorem isKey_iff_mem_keys (s : Store) (k : Int) : isKey s k = true ↔ k ∈ keys s := by
  simp [isKey, keys, List.any_eq_true, List.mem_map]

/-!
## C1: filtering already-sent candidates
-/

/-- C1.  For every candidate frame with an `id` column and every store,
`filter_unsent_events` returns exactly the rows whose id is not a key of
the store: the surviving ids are disjoint from the store's keys, and the
surviving ids together with the frame's ids that are keys of the store are
a permutation of all of the frame's ids.  A frame lacking the `id` column
is returned unchanged. -/
theorem filter_unsent_events_spec (df : DataFrame) (S : Store) :
    (df.hasIdColumn = false → filter_unsent_events df S = df) ∧
    (df.hasIdColumn = true →
      ((filter_unsent_events df S).rows
          = df.rows.filter (fun r => !(isKey S r.id))) ∧
      (∀ r ∈ (filter_unsent_events df S).rows, r.id ∉ keys S) ∧
      ((filter_unsent_events df S).rows.map Row.id
          ++ (df.rows.filter (fun r => isKey S r.id)).map Row.id).Perm
        (df.rows.map Row.id)) := by
  constructor
  · intro h
    unfold filter_unsent_events
    rw [h]
    split <;> simp
  · intro h
    have hrows : (filter_unsent_events df S).rows
        = df.rows.filter (fun r => !(isKey S r.id)) := by
      unfold filter_unsent_events
      rw [h]
      split
      · next hemp =>
        simp only [List.isEmpty_iff] at hemp
        simp [hemp]
      · simp
    refine ⟨hrows, ?_, ?_⟩
    · intro r hr
      rw [hrows, List.mem_filter] at hr
      intro hk
      rw [← isKey_iff_mem_keys] at hk
      simp [hk] at hr
    · rw [hrows]
      have hperm := List.filter_append_perm (fun r => !(isKey S r.id)) df.rows
      have hneg : df.rows.filter (fun r => !(!(isKey S r.id)))
          = df.rows.filter (fun r => isKey S r.id) := by
        apply List.filter_congr
        intro r _
        simp
      rw [hneg] at hperm
      rw [← List.map_append]
      exact hperm.map Row.id

/-- Concrete instance for `filter_unsent_events_spec`: a frame with ids 5
and 6 against a store that knows 5 keeps exactly the id-6 row. -/
theorem filter_unsent_events_spec_witness :
    (DataFrame.mk true [⟨5, none, "a"⟩, ⟨6, none, "b"⟩]).hasIdColumn = true ∧
    (filter_unsent_events (DataFrame.mk true [⟨5, none, "a"⟩, ⟨6, none, "b"⟩])
        [(5, "t0")]).rows
      = (DataFrame.mk true [⟨5, none, "a"⟩, ⟨6, none, "b"⟩]).rows.filter
          (fun r => !(isKey [((5 : Int), "t0")] r.id)) :=
  ⟨rfl,
    ((filter_unsent_events_spec (DataFrame.mk true [⟨5, none, "a"⟩, ⟨6, none, "b"⟩])
      [(5, "t0")]).2 rfl).1⟩

/-!
## Lemmas about loading
-/

theorem select_sent_events_data_none (sed : List (String × String)) (nowStr : String) :
    select_sent_events_data sed none nowStr = sed := by
  unfold select_sent_events_data
  split <;> rfl

theorem parseKeysToInt_map_toString (parseKey : String → Option Int) (ts : String)
    (ids : List Int) (h : ∀ i ∈ ids, parseKey (toString i) = some i) :
    parseKeysToInt parseKey (ids.map (fun i => (toString i, ts)))
      = some (ids.map (fun i => (i, ts))) := by
  induction ids with
  | nil => rfl
  | cons a l ih =>
    simp only [List.map_cons, parseKeysToInt]
    rw [h a (List.mem_cons_self a l), ih (fun i hi => h i (List.mem_cons_of_mem a hi))]
    rfl

theorem parseKeysToInt_serialized (parseKey : String → Option Int)
    (l : Store) (h : ∀ e ∈ l, parseKey (toString e.1) = some e.1) :
    parseKeysToInt parseKey (l.map (fun e => (toString e.1, e.2))) = some l := by
  induction l with
  | nil => rfl
  | cons a l ih =>
    simp only [List.map_cons, parseKeysToInt]
    rw [h a (List.mem_cons_self a l), ih (fun e he => h e (List.mem_cons_of_mem a he))]
    rfl

theorem insertSorted_perm (e : Int × String) (l : Store) :
    (insertSorted e l).Perm (e :: l) := by
  induction l with
  | nil => exact List.Perm.refl _
  | cons f rest ih =>
    unfold insertSorted
    split
    · exact List.Perm.refl _
    · exact (ih.cons f).trans (List.Perm.swap e f rest)

theorem sortEntries_perm (l : Store) : (sortEntries l).Perm l := by
  induction l with
  | nil => exact List.Perm.refl _
  | cons e rest ih =>
    exact (insertSorted_perm e (sortEntries rest)).trans (ih.cons e)

/-- Key-value parsers used to instantiate the witnesses below: `int` on
the decimal strings that occur there, and ISO parsing on three sample
timestamps (`T-NOW` = 1000, `T-CUT` = 600, `T-OLD` = 599 microseconds). -/
def demoKeyParse (s : String) : Option Int :=
  if s = "1" then some 1 else if s = "2" then some 2 else if s = "3" then some 3 else none

def demoTsParse (s : String) : Option Int :=
  if s = "T-NOW" then some 1000
  else if s = "T-CUT" then some 600
  else if s = "T-OLD" then some 599
  else none

/-!
## C4: pruning on load, strict-cutoff boundary
-/

/-- C4.  Loading a current-format file prunes with `cutoff = now - window`:
an entry survives iff its timestamp parses to some `t` with `cutoff ≤ t`;
in particular an entry timestamped exactly at the cutoff is retained, one
a single microsecond older is dropped, and an unparseable one is dropped. -/
theorem prune_on_load_spec (parseKey parseTs : String → Option Int)
    (nowStr : String) (now window : Int) (sed : List (String × String)) (entries : Store)
    (hpk : parseKeysToInt parseKey sed = some entries) :
    ((load_sent_events parseKey parseTs nowStr now window (.parsed sed none)).store
        = prune_entries parseTs (now - window) entries) ∧
    (∀ e ∈ entries,
      (e ∈ prune_entries parseTs (now - window) entries ↔
        ∃ t, parseTs e.2 = some t ∧ now - window ≤ t)) ∧
    (∀ e ∈ entries, parseTs e.2 = some (now - window) →
      e ∈ prune_entries parseTs (now - window) entries) ∧
    (∀ e ∈ entries, parseTs e.2 = some (now - window - 1) →
      e ∉ prune_entries parseTs (now - window) entries) ∧
    (∀ e ∈ entries, parseTs e.2 = none →
      e ∉ prune_entries parseTs (now - window) entries) := by
  have hmem : ∀ e ∈ entries,
      (e ∈ prune_entries parseTs (now - window) entries ↔
        ∃ t, parseTs e.2 = some t ∧ now - window ≤ t) := by
    intro e he
    unfold prune_entries
    rw [List.mem_filter]
    unfold keep_entry
    constructor
    · rintro ⟨-, hk⟩
      cases hp : parseTs e.2 with
      | none => rw [hp] at hk; exact absurd hk (by simp)
      | some t =>
        rw [hp] at hk
        simp only [decide_eq_true_eq] at hk
        exact ⟨t, rfl, hk⟩
    · rintro ⟨t, hp, ht⟩
      refine ⟨he, ?_⟩
      rw [hp]
      exact decide_eq_true ht
  refine ⟨?_, hmem, ?_, ?_, ?_⟩
  · simp only [load_sent_events]
    rw [select_sent_events_data_none, hpk]
  · intro e he hp
    exact (hmem e he).mpr ⟨now - window, hp, le_refl _⟩
  · intro e he hp hcontra
    obtain ⟨t, hp2, ht⟩ := (hmem e he).mp hcontra
    rw [hp] at hp2
    injection hp2 with h
    omega
  · intro e he hp hcontra
    obtain ⟨t, hp2, -⟩ := (hmem e he).mp hcontra
    rw [hp] at hp2
    exact Option.noConfusion hp2

/-- Concrete instance for `prune_on_load_spec`: with `now = 1000` and
`window = 400`, an entry at exactly the cutoff (600) is retained and one a
microsecond older (599) is dropped. -/
theorem prune_on_load_spec_witness :
    parseKeysToInt demoKeyParse [("1", "T-CUT"), ("2", "T-OLD")]
        = some [(1, "T-CUT"), (2, "T-OLD")] ∧
    ((1 : Int), "T-CUT") ∈ prune_entries demoTsParse (1000 - 400)
        [(1, "T-CUT"), (2, "T-OLD")] ∧
    ((2 : Int), "T-OLD") ∉ prune_entries demoTsParse (1000 - 400)
        [(1, "T-CUT"), (2, "T-OLD")] := by
  have hpk : parseKeysToInt demoKeyParse [("1", "T-CUT"), ("2", "T-OLD")]
      = some [(1, "T-CUT"), (2, "T-OLD")] := by decide
  have h := prune_on_load_spec demoKeyParse demoTsParse "T-NOW" 1000 400
    [("1", "T-CUT"), ("2", "T-OLD")] [(1, "T-CUT"), (2, "T-OLD")] hpk
  refine ⟨hpk, ?_, ?_⟩
  · exact h.2.2.1 (1, "T-CUT") (by decide) (by decide)
  · exact h.2.2.2.1 (2, "T-OLD") (by decide) (by decide)

/-!
## C5: legacy-format migration

The legacy branch (lines 172-176) stamps every migrated id with the
current load time, so the pruning loop removes nothing (for any
nonnegative window) and the save at line 208 — guarded by
`removed_count > 0` — is never reached: the file stays in legacy format on
disk until the next explicit persist.
-/

/-- Counterexample to C5 as stated: loading the legacy file
`{"sent_event_ids": [1, 2, 3]}` at time 1000 with window 400 yields the
expected 3-entry store, all stamped with the load time, but
`save_sent_events` is NOT invoked (`savedFile = false`), so the on-disk
file is not rewritten in the current format after the load. -/
theorem legacy_load_no_rewrite_cex :
    load_sent_events demoKeyParse demoTsParse "T-NOW" 1000 400
        (.parsed [] (some [1, 2, 3]))
      = ⟨[(1, "T-NOW"), (2, "T-NOW"), (3, "T-NOW")], false⟩ := by
  decide

/-- C5 (amended).  A legacy-format file with a bare id list loads to a
store with one entry per id, each stamped with the current load time, but
the file on disk is rewritten during load only when pruning removed an
entry; since the migrated entries carry the load time itself, nothing is
removed under any nonnegative window and no rewrite happens. -/
theorem legacy_load_spec (parseKey parseTs : String → Option Int)
    (nowStr : String) (now window : Int) (ids : List Int)
    (hkey : ∀ i ∈ ids, parseKey (toString i) = some i)
    (hts : parseTs nowStr = some now) (hw : 0 ≤ window) :
    load_sent_events parseKey parseTs nowStr now window (.parsed [] (some ids))
      = ⟨ids.map (fun i => (i, nowStr)), false⟩ := by
  have hsel : select_sent_events_data [] (some ids) nowStr
      = ids.map (fun i => (toString i, nowStr)) := by
    unfold select_sent_events_data
    rfl
  have hkeep : ∀ e ∈ ids.map (fun i => (i, nowStr)),
      keep_entry parseTs (now - window) e = true := by
    intro e he
    rw [List.mem_map] at he
    obtain ⟨i, -, rfl⟩ := he
    unfold keep_entry
    rw [hts]
    exact decide_eq_true (by omega)
  have hprune : prune_entries parseTs (now - window) (ids.map (fun i => (i, nowStr)))
      = ids.map (fun i => (i, nowStr)) :=
    List.filter_eq_self.mpr hkeep
  simp only [load_sent_events]
  rw [hsel, parseKeysToInt_map_toString parseKey nowStr ids hkey]
  simp only [hprune, lt_irrefl, decide_eq_true_eq]
  rfl

/-- Concrete instance for `legacy_load_spec` at ids `[1, 2, 3]`. -/
theorem legacy_load_spec_witness :
    (∀ i ∈ ([1, 2, 3] : List Int), demoKeyParse (toString i) = some i) ∧
    load_sent_events demoKeyParse demoTsParse "T-NOW" 1000 400
        (.parsed [] (some [1, 2, 3]))
      = ⟨([1, 2, 3] : List Int).map (fun i => (i, "T-NOW")), false⟩ :=
  ⟨by decide,
    legacy_load_spec demoKeyParse demoTsParse "T-NOW" 1000 400 [1, 2, 3]
      (by decide) (by decide) (by decide)⟩

/-!
## C6: load fails soft
-/

/-- C6.  `load_sent_events` never raises: a missing file, corrupt JSON,
and any malformed structure (including non-integer keys, `parseKeysToInt`
returning `none`) all yield an empty store rather than an error. -/
theorem load_fails_soft (parseKey parseTs : String → Option Int)
    (nowStr : String) (now window : Int) :
    (load_sent_events parseKey parseTs nowStr now window .missing = ⟨[], false⟩) ∧
    (load_sent_events parseKey parseTs nowStr now window .corruptJson = ⟨[], false⟩) ∧
    (load_sent_events parseKey parseTs nowStr now window .badStructure = ⟨[], false⟩) ∧
    (∀ sed ids, parseKeysToInt parseKey (select_sent_events_data sed ids nowStr) = none →
      load_sent_events parseKey parseTs nowStr now window (.parsed sed ids)
        = ⟨[], false⟩) := by
  refine ⟨rfl, rfl, rfl, ?_⟩
  intro sed ids h
  simp only [load_sent_events]
  rw [h]

/-- Concrete instance for `load_fails_soft`: a current-format file with a
non-integer key (on which Python `int` raises) loads to the empty store. -/
theorem load_fails_soft_witness :
    parseKeysToInt demoKeyParse
        (select_sent_events_data [("oops", "T-NOW")] none "T-NOW") = none ∧
    load_sent_events demoKeyParse demoTsParse "T-NOW" 1000 400
        (.parsed [("oops", "T-NOW")] none) = ⟨[], false⟩ :=
  ⟨by decide,
    (load_fails_soft demoKeyParse demoTsParse "T-NOW" 1000 400).2.2.2
      [("oops", "T-NOW")] none (by decide)⟩

/-!
## C7: atomic persist, errors propagate
-/

/-- C7.  `save_sent_events` writes to a temporary file and renames it over
the tracking file: if either the write or the rename fails, the error
propagates to the caller (success flag `false`), the previously committed
tracking file is untouched, and the temporary file is cleaned up; when
both succeed, the tracking file holds exactly the rendered store. -/
theorem save_sent_events_spec (fs : FileSystem) (s : Store)
    (writeFails renameFails : Bool) :
    ((writeFails || renameFails) = true →
      (save_sent_events fs s writeFails renameFails).1 = false ∧
      (save_sent_events fs s writeFails renameFails).2.tracking = fs.tracking ∧
      (save_sent_events fs s writeFails renameFails).2.temp = none) ∧
    (writeFails = false → renameFails = false →
      save_sent_events fs s writeFails renameFails
        = (true, ⟨some (rendered_file s), none⟩)) := by
  constructor
  · intro h
    unfold save_sent_events
    cases writeFails with
    | true => exact ⟨rfl, rfl, rfl⟩
    | false =>
      cases renameFails with
      | true => exact ⟨rfl, rfl, rfl⟩
      | false => simp at h
  · rintro rfl rfl
    rfl

/-- Concrete instance for `save_sent_events_spec`: a failing rename leaves
a previously committed file `rendered_file [(7, "T-CUT")]` in place and
reports the error. -/
theorem save_sent_events_spec_witness :
    ((false || true) = true) ∧
    (save_sent_events ⟨some (rendered_file [(7, "T-CUT")]), none⟩
        [(8, "T-NOW")] false true).1 = false ∧
    (save_sent_events ⟨some (rendered_file [(7, "T-CUT")]), none⟩
        [(8, "T-NOW")] false true).2.tracking = some (rendered_file [(7, "T-CUT")]) :=
  ⟨rfl,
    ((save_sent_events_spec ⟨some (rendered_file [(7, "T-CUT")]), none⟩
      [(8, "T-NOW")] false true).1 rfl).1,
    ((save_sent_events_spec ⟨some (rendered_file [(7, "T-CUT")]), none⟩
      [(8, "T-NOW")] false true).1 rfl).2.1⟩

/-!
## C8: persist/load round trip
-/

/-- C8.  For a store whose keys parse back from their decimal rendering
and whose entries all pass the retention test (parseable timestamp, not
past the expiry cutoff), loading the file that `save_sent_events` wrote
returns the same store (as a dictionary: a permutation — the file carries
it in ascending key order), and the load triggers no re-save. -/
theorem load_persist_roundtrip (parseKey parseTs : String → Option Int)
    (nowStr : String) (now window : Int) (S : Store)
    (hkey : ∀ e ∈ S, parseKey (toString e.1) = some e.1)
    (hkeep : ∀ e ∈ S, keep_entry parseTs (now - window) e = true) :
    ((load_sent_events parseKey parseTs nowStr now window (rendered_file S)).store).Perm S ∧
    (load_sent_events parseKey parseTs nowStr now window (rendered_file S)).savedFile
      = false := by
  have hperm := sortEntries_perm S
  have hkey2 : ∀ e ∈ sortEntries S, parseKey (toString e.1) = some e.1 :=
    fun e he => hkey e (hperm.mem_iff.mp he)
  have hkeep2 : ∀ e ∈ sortEntries S, keep_entry parseTs (now - window) e = true :=
    fun e he => hkeep e (hperm.mem_iff.mp he)
  have hpk : parseKeysToInt parseKey (serialize_sent_events S) = some (sortEntries S) :=
    parseKeysToInt_serialized parseKey (sortEntries S) hkey2
  have hprune : prune_entries parseTs (now - window) (sortEntries S) = sortEntries S :=
    List.filter_eq_self.mpr hkeep2
  have hload : load_sent_events parseKey parseTs nowStr now window (rendered_file S)
      = ⟨sortEntries S, false⟩ := by
    unfold rendered_file
    simp only [load_sent_events]
    rw [select_sent_events_data_none, hpk]
    simp only [hprune, lt_irrefl, decide_eq_true_eq]
    rfl
  rw [hload]
  exact ⟨hperm, rfl⟩

/-- Concrete instance for `load_persist_roundtrip` on the store
`{2 ↦ T-NOW, 1 ↦ T-CUT}` with `now = 1000`, `window = 400`. -/
theorem load_persist_roundtrip_witness :
    (∀ e ∈ ([(2, "T-NOW"), (1, "T-CUT")] : Store),
      demoKeyParse (toString e.1) = some e.1) ∧
    ((load_sent_events demoKeyParse demoTsParse "T-NOW" 1000 400
        (rendered_file [(2, "T-NOW"), (1, "T-CUT")])).store).Perm
      [(2, "T-NOW"), (1, "T-CUT")] :=
  ⟨by decide,
    (load_persist_roundtrip demoKeyParse demoTsParse "T-NOW" 1000 400
      [(2, "T-NOW"), (1, "T-CUT")] (by decide) (by decide)).1⟩

/-!
## Lemmas about the commit loop
-/

theorem storeLookup_of_not_isKey (st : Store) (k : Int) (h : isKey st k = false) :
    storeLookup st k = none := by
  induction st with
  | nil => rfl
  | cons e rest ih =>
    unfold isKey at h
    simp only [List.any_cons, Bool.or_eq_false_iff, decide_eq_false_iff_not] at h
    unfold storeLookup
    rw [if_neg h.1]
    exact ih (by unfold isKey; exact h.2)

theorem storeLookup_append_of_none (st t : Store) (k : Int)
    (h : storeLookup st k = none) :
    storeLookup (st ++ t) k = storeLookup t k := by
  induction st with
  | nil => rfl
  | cons e rest ih =>
    rw [List.cons_append]
    simp only [storeLookup] at h ⊢
    by_cases he : e.1 = k
    · rw [if_pos he] at h; exact absurd h (by simp)
    · rw [if_neg he] at h ⊢
      exact ih h

theorem storeLookup_overwrite_self (st : Store) (k : Int) (v : String)
    (h : isKey st k = true) :
    storeLookup (st.map (fun e => if e.1 = k then (k, v) else e)) k = some v := by
  induction st with
  | nil => exact absurd h (by simp [isKey])
  | cons e rest ih =>
    simp only [List.map_cons]
    by_cases he : e.1 = k
    · rw [if_pos he]
      unfold storeLookup
      rw [if_pos rfl]
    · rw [if_neg he]
      unfold storeLookup
      rw [if_neg he]
      apply ih
      unfold isKey at h
      simp only [List.any_cons, Bool.or_eq_true_iff, decide_eq_true_eq] at h
      rcases h with h | h
      · exact absurd h he
      · exact h

theorem storeLookup_overwrite_other (st : Store) (k i : Int) (v : String)
    (hik : i ≠ k) :
    storeLookup (st.map (fun e => if e.1 = k then (k, v) else e)) i
      = storeLookup st i := by
  induction st with
  | nil => rfl
  | cons e rest ih =>
    simp only [List.map_cons]
    by_cases he : e.1 = k
    · rw [if_pos he]
      unfold storeLookup
      rw [if_neg (fun h => hik h.symm), if_neg (fun h => hik (he ▸ h).symm)]
      exact ih
    · rw [if_neg he]
      unfold storeLookup
      exact if_congr Iff.rfl rfl ih

theorem storeLookup_dictInsert_self (st : Store) (k : Int) (v : String) :
    storeLookup (dictInsert st k v) k = some v := by
  unfold dictInsert
  by_cases h : isKey st k
  · rw [if_pos h]
    exact storeLookup_overwrite_self st k v h
  · rw [if_neg h]
    rw [storeLookup_append_of_none st [(k, v)] k
      (storeLookup_of_not_isKey st k (by simpa using h))]
    unfold storeLookup
    rw [if_pos rfl]

theorem storeLookup_dictInsert_other (st : Store) (k i : Int) (v : String)
    (hik : i ≠ k) :
    storeLookup (dictInsert st k v) i = storeLookup st i := by
  unfold dictInsert
  by_cases h : isKey st k
  · rw [if_pos h]
    exact storeLookup_overwrite_other st k i v hik
  · rw [if_neg h]
    cases hl : storeLookup st i with
    | some w =>
      clear h
      induction st with
      | nil => exact absurd hl (by simp [storeLookup])
      | cons e rest ih =>
        rw [List.cons_append]
        simp only [storeLookup] at hl ⊢
        by_cases he : e.1 = i
        · rw [if_pos he] at hl ⊢
          exact hl
        · rw [if_neg he] at hl ⊢
          exact ih hl
    | none =>
      rw [storeLookup_append_of_none st [(k, v)] i hl]
      unfold storeLookup
      rw [if_neg (fun h2 => hik h2.symm)]
      rfl

theorem storeLookup_commit_sent_preserved (ts : String) (ids : List Int) :
    ∀ st i, storeLookup st i = some ts →
      storeLookup (commit_sent st ids ts) i = some ts := by
  induction ids with
  | nil => intro st i h; exact h
  | cons a l ih =>
    intro st i h
    show storeLookup (commit_sent (dictInsert st a ts) l ts) i = some ts
    apply ih
    by_cases hia : i = a
    · subst hia
      exact storeLookup_dictInsert_self st i ts
    · rw [storeLookup_dictInsert_other st a i ts hia]
      exact h

theorem storeLookup_commit_sent_mem (ts : String) (ids : List Int) :
    ∀ st i, i ∈ ids → storeLookup (commit_sent st ids ts) i = some ts := by
  induction ids with
  | nil => intro st i h; exact absurd h (List.not_mem_nil i)
  | cons a l ih =>
    intro st i h
    show storeLookup (commit_sent (dictInsert st a ts) l ts) i = some ts
    rcases List.mem_cons.mp h with rfl | hmem
    · exact storeLookup_commit_sent_preserved ts l (dictInsert st i ts) i
        (storeLookup_dictInsert_self st i ts)
    · exact ih (dictInsert st a ts) i hmem

theorem mem_guard_union (b : Bool) (l : List Int) (s : Finset Int) (x : Int) :
    (x ∈ if b && !l.isEmpty then s ∪ l.toFinset else s) ↔
      x ∈ s ∨ (b = true ∧ x ∈ l) := by
  cases b with
  | false => simp
  | true =>
    cases l with
    | nil => simp
    | cons a t =>
      simp [Finset.mem_union, List.mem_toFinset]
      tauto

theorem notifications_sent_prominence_mem_iff (cfg : ChannelConfig)
    (a : DeliveryAttempts) (pids : List Int) (x : Int) :
    (notifications_sent_prominence cfg a pids = true ∧ x ∈ pids) ↔
      (cfg.enable_email_alerts = true ∧ sendSucceeded a.prominence_email = true
        ∧ x ∈ pids) := by
  unfold notifications_sent_prominence
  constructor
  · rintro ⟨h, hx⟩
    simp only [Bool.and_eq_true] at h
    exact ⟨h.1.1, h.2, hx⟩
  · rintro ⟨h1, h2, hx⟩
    have hne : pids.isEmpty = false := by
      cases pids with
      | nil => exact absurd hx (List.not_mem_nil x)
      | cons p t => rfl
    simp only [Bool.and_eq_true]
    exact ⟨⟨⟨h1, by rw [hne]; rfl⟩, h2⟩, hx⟩

theorem notifications_sent_seatraders_mem_iff (cfg : ChannelConfig)
    (a : DeliveryAttempts) (sids : List Int) (x : Int) :
    (notifications_sent_seatraders cfg a sids = true ∧ x ∈ sids) ↔
      (cfg.enable_email_alerts = true ∧ sendSucceeded a.seatraders_email = true
        ∧ x ∈ sids) := by
  unfold notifications_sent_seatraders
  constructor
  · rintro ⟨h, hx⟩
    simp only [Bool.and_eq_true] at h
    exact ⟨h.1.1, h.2, hx⟩
  · rintro ⟨h1, h2, hx⟩
    have hne : sids.isEmpty = false := by
      cases sids with
      | nil => exact absurd hx (List.not_mem_nil x)
      | cons p t => rfl
    simp only [Bool.and_eq_true]
    exact ⟨⟨⟨h1, by rw [hne]; rfl⟩, h2⟩, hx⟩

/-!
## C3: independent best-effort delivery; committed ids are the union of
successful deliveries
-/

/-- C3.  Membership in the committed id set: an id is committed exactly
when it belongs to a group that saw at least one successful delivery
attempt — the internal batch when any of its three channels succeeded, the
prominence batch when its email succeeded, the seatraders batch when its
email succeeded; failures (each caught in its own `try`/`except`) never
remove another group's contribution.  In the spec's scenario — the
internal email succeeds for ids {5, 6} while every other attempt fails —
the run still commits and persists exactly {5, 6}. -/
theorem delivered_ids_union_spec (cfg : ChannelConfig) (a : DeliveryAttempts)
    (eids pids sids : List Int) (x : Int) (st : Store) (ts m1 m2 m3 m4 : String) :
    (x ∈ all_sent_event_ids cfg a eids pids sids ↔
      (notifications_sent cfg a = true ∧ x ∈ eids) ∨
      (cfg.enable_email_alerts = true ∧ sendSucceeded a.prominence_email = true
        ∧ x ∈ pids) ∨
      (cfg.enable_email_alerts = true ∧ sendSucceeded a.seatraders_email = true
        ∧ x ∈ sids)) ∧
    (run_commit_phase ⟨true, true, true⟩
        ⟨.ok, .failed m1, .failed m2, .failed m3, .failed m4⟩
        [5, 6] [] [] st ts
      = (commit_sent st [5, 6] ts, true)) := by
  constructor
  · unfold all_sent_event_ids
    rw [mem_guard_union, mem_guard_union, mem_guard_union]
    rw [notifications_sent_prominence_mem_iff, notifications_sent_seatraders_mem_iff]
    simp only [Finset.not_mem_empty, false_or]
    tauto
  · have hids : all_sent_event_ids ⟨true, true, true⟩
        ⟨.ok, .failed m1, .failed m2, .failed m3, .failed m4⟩
        [5, 6] [] [] = ({5, 6} : Finset Int) := by
      simp [all_sent_event_ids, notifications_sent, notifications_sent_prominence,
        notifications_sent_seatraders, sendSucceeded]
    have hsort : (({5, 6} : Finset Int)).sort (· ≤ ·) = [5, 6] := by
      rw [show ({5, 6} : Finset Int) = insert 5 {6} from rfl]
      rw [Finset.sort_insert]
      · rw [Finset.sort_singleton]
      · intro b hb
        rw [Finset.mem_singleton] at hb
        subst hb
        norm_num
      · decide
    unfold run_commit_phase
    rw [hids]
    show (if ({5, 6} : Finset Int) = ∅ then (st, false)
        else (commit_sent st ((({5, 6} : Finset Int)).sort (· ≤ ·)) ts, true))
      = (commit_sent st [5, 6] ts, true)
    rw [if_neg (Finset.ne_empty_of_mem
      (show (5 : Int) ∈ ({5, 6} : Finset Int) by decide))]
    rw [hsort]

/-- Concrete instance for `delivered_ids_union_spec`: with the internal
email succeeding and all other attempts failing, id 5 is committed and an
untouched id 7 is not. -/
theorem delivered_ids_union_spec_witness :
    ((5 : Int) ∈ all_sent_event_ids ⟨true, true, true⟩
        ⟨.ok, .failed "boom", .failed "boom", .failed "boom", .failed "boom"⟩
        [5, 6] [] []) ∧
    ¬ ((7 : Int) ∈ all_sent_event_ids ⟨true, true, true⟩
        ⟨.ok, .failed "boom", .failed "boom", .failed "boom", .failed "boom"⟩
        [5, 6] [] []) := by
  constructor
  · exact (delivered_ids_union_spec ⟨true, true, true⟩
      ⟨.ok, .failed "boom", .failed "boom", .failed "boom", .failed "boom"⟩
      [5, 6] [] [] 5 [] "ts" "m" "m" "m" "m").1.mpr
      (Or.inl ⟨by decide, by decide⟩)
  · intro h
    have := (delivered_ids_union_spec ⟨true, true, true⟩
      ⟨.ok, .failed "boom", .failed "boom", .failed "boom", .failed "boom"⟩
      [5, 6] [] [] 7 [] "ts" "m" "m" "m" "m").1.mp h
    rcases this with ⟨-, h7⟩ | ⟨-, h2, -⟩ | ⟨-, h2, -⟩
    · exact absurd h7 (by decide)
    · exact absurd h2 (by decide)
    · exact absurd h2 (by decide)

/-!
## C2: nothing committed or persisted when every delivery fails
-/

/-- C2.  When every delivery attempt fails, the committed id set is empty,
so the commit-and-persist step leaves the store unchanged and invokes no
save; filtering any candidate frame against the resulting store therefore
returns the same candidates as before the run. -/
theorem all_failed_nothing_persisted (cfg : ChannelConfig) (a : DeliveryAttempts)
    (eids pids sids : List Int) (st : Store) (ts : String) (df : DataFrame)
    (h1 : sendSucceeded a.internal_email = false)
    (h2 : sendSucceeded a.prominence_email = false)
    (h3 : sendSucceeded a.seatraders_email = false)
    (h4 : sendSucceeded a.special_teams_email = false)
    (h5 : sendSucceeded a.teams_message = false) :
    run_commit_phase cfg a eids pids sids st ts = (st, false) ∧
    filter_unsent_events df (run_commit_phase cfg a eids pids sids st ts).1
      = filter_unsent_events df st := by
  have hns : notifications_sent cfg a = false := by
    unfold notifications_sent
    rw [h1, h4, h5]
    simp
  have hnp : notifications_sent_prominence cfg a pids = false := by
    unfold notifications_sent_prominence
    rw [h2]
    simp
  have hnsea : notifications_sent_seatraders cfg a sids = false := by
    unfold notifications_sent_seatraders
    rw [h3]
    simp
  have hempty : all_sent_event_ids cfg a eids pids sids = ∅ := by
    unfold all_sent_event_ids
    rw [hns, hnp, hnsea]
    simp
  have hrun : run_commit_phase cfg a eids pids sids st ts = (st, false) := by
    unfold run_commit_phase
    rw [hempty]
    simp
  exact ⟨hrun, by rw [hrun]⟩

/-- Concrete instance for `all_failed_nothing_persisted`: ids {5, 6}
pending, every attempt failing — the store stays `[]`, nothing is saved,
and the next run's filter still returns both candidates. -/
theorem all_failed_nothing_persisted_witness :
    run_commit_phase ⟨true, true, true⟩
        ⟨.failed "a", .failed "b", .failed "c", .failed "d", .failed "e"⟩
        [5, 6] [] [] [] "ts" = ([], false) ∧
    filter_unsent_events (DataFrame.mk true [⟨5, none, "x"⟩, ⟨6, none, "y"⟩])
        (run_commit_phase ⟨true, true, true⟩
          ⟨.failed "a", .failed "b", .failed "c", .failed "d", .failed "e"⟩
          [5, 6] [] [] [] "ts").1
      = filter_unsent_events (DataFrame.mk true [⟨5, none, "x"⟩, ⟨6, none, "y"⟩]) [] :=
  all_failed_nothing_persisted ⟨true, true, true⟩
    ⟨.failed "a", .failed "b", .failed "c", .failed "d", .failed "e"⟩
    [5, 6] [] [] [] "ts" (DataFrame.mk true [⟨5, none, "x"⟩, ⟨6, none, "y"⟩])
    rfl rfl rfl rfl rfl

/-!
## C10: one run, one timestamp
-/

/-- C10.  Every id committed by a run is stamped with the same string: the
ISO rendering of the single `run_time` captured at the start of `main`
(line 813), which `run_commit_phase` receives as a parameter fixed before
any delivery attempt.  Hence no committed timestamp reflects the
per-delivery moment and no two ids committed in one run differ. -/
theorem committed_timestamps_uniform (cfg : ChannelConfig) (a : DeliveryAttempts)
    (eids pids sids : List Int) (st : Store) (run_time_iso : String) :
    ∀ i ∈ all_sent_event_ids cfg a eids pids sids,
      storeLookup (run_commit_phase cfg a eids pids sids st run_time_iso).1 i
        = some run_time_iso := by
  intro i hi
  unfold run_commit_phase
  rw [if_neg (Finset.ne_empty_of_mem hi)]
  exact storeLookup_commit_sent_mem run_time_iso _ st i
    ((Finset.mem_sort (α := Int) (· ≤ ·)).mpr hi)

/-- Concrete instance for `committed_timestamps_uniform`: ids 5 and 6 both
end up stamped with the one run timestamp. -/
theorem committed_timestamps_uniform_witness :
    storeLookup (run_commit_phase ⟨true, true, true⟩
        ⟨.ok, .ok, .ok, .ok, .ok⟩ [5, 6] [] [] [] "2025-10-29T08:00:00+02:00").1 5
      = some "2025-10-29T08:00:00+02:00" ∧
    storeLookup (run_commit_phase ⟨true, true, true⟩
        ⟨.ok, .ok, .ok, .ok, .ok⟩ [5, 6] [] [] [] "2025-10-29T08:00:00+02:00").1 6
      = some "2025-10-29T08:00:00+02:00" :=
  ⟨committed_timestamps_uniform ⟨true, true, true⟩ ⟨.ok, .ok, .ok, .ok, .ok⟩
      [5, 6] [] [] [] "2025-10-29T08:00:00+02:00" 5 (by decide),
    committed_timestamps_uniform ⟨true, true, true⟩ ⟨.ok, .ok, .ok, .ok, .ok⟩
      [5, 6] [] [] [] "2025-10-29T08:00:00+02:00" 6 (by decide)⟩

/-!
## C9: group partitioning
-/

/-- C9.  Partitioning the filtered batch: a candidate lands in the
prominence (resp. seatraders) group exactly when its routing key satisfies
that group's case-insensitive substring predicate — the two predicates are
independent, so a row may land in both groups or in neither — while the
internal group always receives the entire filtered batch; every group's
events are projected with the `email` routing-key column removed. -/
theorem partition_groups_spec (rows : List Row) :
    ((partition_groups rows).internal = rows.map dropEmail) ∧
    (∀ d, d ∈ (partition_groups rows).prominence ↔
      ∃ r, r ∈ rows ∧ strMatchesCI prominence_needle r.email = true ∧ dropEmail r = d) ∧
    (∀ d, d ∈ (partition_groups rows).seatraders ↔
      ∃ r, r ∈ rows ∧ strMatchesCI seatraders_needle r.email = true ∧ dropEmail r = d) := by
  refine ⟨rfl, ?_, ?_⟩
  · intro d
    show d ∈ (rows.filter (fun r => strMatchesCI prominence_needle r.email)).map dropEmail ↔ _
    rw [List.mem_map]
    constructor
    · rintro ⟨r, hr, rfl⟩
      rw [List.mem_filter] at hr
      exact ⟨r, hr.1, hr.2, rfl⟩
    · rintro ⟨r, hr, hm, rfl⟩
      exact ⟨r, List.mem_filter.mpr ⟨hr, hm⟩, rfl⟩
  · intro d
    show d ∈ (rows.filter (fun r => strMatchesCI seatraders_needle r.email)).map dropEmail ↔ _
    rw [List.mem_map]
    constructor
    · rintro ⟨r, hr, rfl⟩
      rw [List.mem_filter] at hr
      exact ⟨r, hr.1, hr.2, rfl⟩
    · rintro ⟨r, hr, hm, rfl⟩
      exact ⟨r, List.mem_filter.mpr ⟨hr, hm⟩, rfl⟩

/-- Concrete instance for `partition_groups_spec`: a mixed-case prominence
address is routed (without its email column) to the prominence group, a
NaN routing key reaches only the internal group, and both rows reach the
internal group. -/
theorem partition_groups_spec_witness :
    ((partition_groups [⟨1, some (String.toList "ops@PROminence.gr"), "p"⟩,
        ⟨2, none, "q"⟩]).internal
      = [⟨1, "p"⟩, ⟨2, "q"⟩]) ∧
    (⟨1, "p"⟩ ∈ (partition_groups [⟨1, some (String.toList "ops@PROminence.gr"), "p"⟩,
        ⟨2, none, "q"⟩]).prominence) ∧
    ¬ (⟨2, "q"⟩ ∈ (partition_groups [⟨1, some (String.toList "ops@PROminence.gr"), "p"⟩,
        ⟨2, none, "q"⟩]).prominence) := by
  refine ⟨(partition_groups_spec _).1, ?_, ?_⟩
  · exact ((partition_groups_spec _).2.1 ⟨1, "p"⟩).mpr
      ⟨⟨1, some (String.toList "ops@PROminence.gr"), "p"⟩, by decide, by decide, rfl⟩
  · intro h
    obtain ⟨r, hr, hm, hd⟩ := ((partition_groups_spec _).2.1 ⟨2, "q"⟩).mp h
    rcases List.mem_cons.mp hr with rfl | hr2
    · exact absurd hd (by decide)
    · rcases List.mem_cons.mp hr2 with rfl | hr3
      · exact absurd hm (by decide)
      · exact absurd hr3 (List.not_mem_nil r)

end EventsAlerts
